import Mathlib

/-!
Verification development for the ARA MCP server (contrib/mcp/ara_mcp.py).

The definitions below are a shallow embedding of the url-resolution,
batch-fetch and aggregation logic of the server.  Network calls are
modelled by explicit oracles (functions from a resource id or query to the
record or page the server would return); an oracle returning `none` models
a fetch that raises.  Python exceptions are modelled with `Except`.
JSON records are modelled by the inductive type `J`; a record returned by
the API is an association list of fields (`JObj`).
-/

namespace AraMcp

/-! ## Python character and string primitives -/

/-- Whitespace characters stripped by the Python `str.strip()` method
(ASCII fragment: space, tab, line feed, carriage return, vertical tab,
form feed). -/
def isPySpace (c : Char) : Bool :=
  c == ' ' || c == '\t' || c == '\n' || c == '\r' || c == '\x0b' || c == '\x0c'

/-- Drop trailing characters satisfying `p` (used for `str.rstrip`). -/
def dropTrailing (p : Char → Bool) (l : List Char) : List Char :=
  (l.reverse.dropWhile p).reverse

/-- The Python `str.strip()` method (no argument): remove leading and
trailing whitespace. -/
def pyStripL (l : List Char) : List Char :=
  dropTrailing isPySpace (l.dropWhile isPySpace)

def pyStrip (s : String) : String := ⟨pyStripL s.data⟩

/-- The Python `str.rstrip("/")` call: remove trailing slashes. -/
def pyRstripSlashL (l : List Char) : List Char :=
  dropTrailing (fun c => c == '/') l

def pyRstripSlash (s : String) : String := ⟨pyRstripSlashL s.data⟩

/-- ASCII lowering, as Python `str.lower()` acts on ASCII data. -/
def pyLower (s : String) : String := ⟨s.data.map Char.toLower⟩

/-- The Python `str.isdigit()` test, restricted to ASCII digits: true on a
nonempty string all of whose characters are digits. -/
def pyIsDigit (s : String) : Bool :=
  !s.data.isEmpty && s.data.all Char.isDigit

/-- Numeric value of a digit string, as computed by the Python `int()`
constructor on an unsigned decimal literal. -/
def pyStrToNat (s : String) : Nat :=
  s.data.foldl (fun acc c => 10 * acc + (c.toNat - 48)) 0

/-- Split a list at the first occurrence of character `c` (the Python
`str.split(c, 1)` call on a string known to contain `c`); `none` when `c`
does not occur. -/
def splitFirstChar (c : Char) : List Char → Option (List Char × List Char)
  | [] => none
  | x :: xs =>
    if x == c then some ([], xs)
    else (splitFirstChar c xs).map (fun p => (x :: p.1, p.2))

/-! ## The urllib.parse.urlparse model

`urlparse` is a library collaborator of the source file.  The model below
follows the CPython implementation of `urlsplit`/`urlparse` on the
fragment relevant here: removal of tab, carriage-return and line-feed
characters anywhere in the url; scheme extraction (first colon, provided
the text before it is nonempty, starts with an ASCII letter and consists
of scheme characters), lowercasing the scheme; network-location
extraction when the remainder starts with two slashes, up to the first
slash, question mark or hash; then fragment split at the first hash,
query split at the first question mark, and the params split on the last
path segment for schemes that use params.  Unicode normalization checks
and bracketed-host validation are outside the model. -/

def isSchemeChar (c : Char) : Bool :=
  c.isAlphanum || c == '+' || c == '-' || c == '.'

def isNetlocDelim (c : Char) : Bool :=
  c == '/' || c == '?' || c == '#'

/-- Scheme extraction step of `urlsplit`.  Returns the (lowercased)
scheme and the remainder of the url; the url is left whole when there is
no colon, the colon is first, the first character is not an ASCII letter
or some character before the colon is not a scheme character. -/
def splitSchemeL (l : List Char) : List Char × List Char :=
  match splitFirstChar ':' l with
  | none => ([], l)
  | some (pre, post) =>
    match pre with
    | [] => ([], l)
    | c :: _ =>
      if c.isAlpha && pre.all isSchemeChar then (pre.map Char.toLower, post)
      else ([], l)

/-- Network-location extraction step of `urlsplit`: when the remainder
starts with two slashes, the netloc runs to the first slash, question
mark or hash after them; the delimiter stays with the remainder. -/
def splitNetlocL (l : List Char) : List Char × List Char :=
  match l with
  | '/' :: '/' :: rest =>
    (rest.takeWhile (fun c => !isNetlocDelim c),
     rest.dropWhile (fun c => !isNetlocDelim c))
  | _ => ([], l)

/-- Fragment split of `urlsplit`: everything after the first hash. -/
def splitFragmentL (l : List Char) : List Char × List Char :=
  match splitFirstChar '#' l with
  | some (pre, post) => (pre, post)
  | none => (l, [])

/-- Query split of `urlsplit`: everything after the first question mark
of the pre-fragment part. -/
def splitQueryL (l : List Char) : List Char × List Char :=
  match splitFirstChar '?' l with
  | some (pre, post) => (pre, post)
  | none => (l, [])

/-- Schemes for which `urlparse` separates params from the last path
segment (the CPython `uses_params` list, including the empty scheme). -/
def usesParams : List (List Char) :=
  [[], "ftp".data, "hdl".data, "prospero".data, "http".data, "imap".data,
   "https".data, "shttp".data, "rtsp".data, "rtspu".data, "sip".data,
   "sips".data, "mms".data, "sftp".data, "tel".data]

/-- The CPython `_splitparams` helper: split at the first semicolon of
the last path segment, keeping the part before it. -/
def splitParamsCoreL (l : List Char) : List Char :=
  if l.contains '/' then
    let tailPart := (l.reverse.takeWhile (fun c => !(c == '/'))).reverse
    let headPart := l.take (l.length - tailPart.length)
    match splitFirstChar ';' tailPart with
    | some (pre, _) => headPart ++ pre
    | none => l
  else
    match splitFirstChar ';' l with
    | some (pre, _) => pre
    | none => l

/-- Params removal step of `urlparse`: applied only when the scheme uses
params and the path contains a semicolon. -/
def splitParamsL (scheme path : List Char) : List Char :=
  if usesParams.contains scheme && path.contains ';' then
    splitParamsCoreL path
  else path

/-- Result of `urllib.parse.urlparse` restricted to the components the
source reads. -/
structure UrlParts where
  scheme : String
  netloc : String
  path : String
  query : String
  fragment : String
deriving Repr, DecidableEq

/-- Remove tab, carriage-return and line-feed characters anywhere in the
url (the unsafe-byte removal CPython applies before splitting). -/
def removeUnsafeL (l : List Char) : List Char :=
  l.filter (fun c => !(c == '\t' || c == '\r' || c == '\n'))

/-- Model of `urllib.parse.urlparse` (see the section comment above). -/
def pyUrlparse (s : String) : UrlParts :=
  let l1 := removeUnsafeL s.data
  let p1 := splitSchemeL l1
  let p2 := splitNetlocL p1.2
  let p3 := splitFragmentL p2.2
  let p4 := splitQueryL p3.1
  let path := splitParamsL p1.1 p4.1
  ⟨⟨p1.1⟩, ⟨p2.1⟩, ⟨path⟩, ⟨p4.2⟩, ⟨p3.2⟩⟩

/-! ## Identifier resolution (validate_url_origin, parse_ara_url, extract_id) -/

/-- Python exceptions raised by the modelled code paths.  `ambiguousId`
and `unparsable` are the two `ValueError` messages of `parse_ara_url`,
`originMismatch` is the `ValueError` of `validate_url_origin`, and
`keyError` is the `KeyError` of a failed dict indexing. -/
inductive PyErr where
  | ambiguousId
  | originMismatch
  | unparsable
  | keyError (k : Nat)
deriving Repr, DecidableEq

/-- Model of `validate_url_origin(url)`.  The configured server address
(the value `get_web_base()` returns) is passed as `webBase`.  When the
parsed url has no scheme or no netloc the function returns without
checking anything; otherwise the origin `scheme://netloc` must match the
configured origin case-insensitively. -/
def validate_url_origin (webBase url : String) : Except PyErr Unit :=
  let parsed := pyUrlparse url
  if parsed.scheme = "" || parsed.netloc = "" then .ok ()
  else
    let configured := pyUrlparse webBase
    let url_origin := parsed.scheme ++ "://" ++ parsed.netloc
    let configured_origin := configured.scheme ++ "://" ++ configured.netloc
    if pyLower url_origin ≠ pyLower configured_origin then .error .originMismatch
    else .ok ()

def isWordChar (c : Char) : Bool := c.isAlphanum || c == '_'

/-- Deterministic rendering of the anchored pattern
`^/(\w+)/(\d+)(?:\.html)?$` used by `parse_ara_url`: a slash, a nonempty
word-character group, a slash, a nonempty digit group and an optional
literal `.html`, with nothing after it.  Backtracking cannot produce a
match the greedy reading misses: shortening the word group leaves a word
character where the slash is required, and shortening the digit group
leaves a digit where the dot or the end is required. -/
def matchResourcePath (path : String) : Option (String × String) :=
  match path.data with
  | [] => none
  | c :: rest =>
    if c = '/' then
      let kind := rest.takeWhile isWordChar
      if kind.isEmpty then none
      else
        match rest.drop kind.length with
        | [] => none
        | c2 :: rest2 =>
          if c2 = '/' then
            let digits := rest2.takeWhile Char.isDigit
            if digits.isEmpty then none
            else
              let tail := rest2.drop digits.length
              if tail = [] ∨ tail = ".html".data then some (⟨kind⟩, ⟨digits⟩)
              else none
          else none
    else none

/-- Model of `parse_ara_url(url_or_id)`: strip the input, reject a purely
numeric string as ambiguous, validate the origin, then match the path
(with trailing slashes removed) against `/<kind>/<digits>[.html]`. -/
def parse_ara_url (webBase url_or_id : String) : Except PyErr (String × Nat) :=
  let s := pyStrip url_or_id
  if pyIsDigit s then .error .ambiguousId
  else
    match validate_url_origin webBase s with
    | .error e => .error e
    | .ok () =>
      let parsed := pyUrlparse s
      let path := pyRstripSlash parsed.path
      match matchResourcePath path with
      | some (resource, idStr) => .ok (resource, pyStrToNat idStr)
      | none => .error .unparsable

/-- Model of `extract_id(url_or_id)` on string input (the integer branch
of the source takes an already-typed id and is not modelled): a stripped
purely numeric string is converted directly, anything else goes through
`parse_ara_url`. -/
def extract_id (webBase url_or_id : String) : Except PyErr Nat :=
  let s := pyStrip url_or_id
  if pyIsDigit s then .ok (pyStrToNat s)
  else
    match parse_ara_url webBase s with
    | .error e => .error e
    | .ok (_, resource_id) => .ok resource_id

/-! ## JSON values and record helpers -/

/-- JSON values as returned by the API (the fragment the source reads:
null, booleans, numbers as naturals, strings, rationals for decimal
numbers are not needed, and objects as association lists). -/
inductive J where
  | null
  | b (v : Bool)
  | n (v : Nat)
  | s (v : String)
  | obj (fields : List (String × J))
deriving Repr

/-- Structural equality of JSON values, standing in for the Python `==`
and dict-key equality on the values the source compares (strings and
integers in practice). -/
def J.beq : J → J → Bool
  | J.null, J.null => true
  | J.b x, J.b y => x == y
  | J.n x, J.n y => x == y
  | J.s x, J.s y => x == y
  | J.obj xs, J.obj ys => beqFields xs ys
  | _, _ => false
where beqFields : List (String × J) → List (String × J) → Bool
  | [], [] => true
  | (k1, v1) :: t1, (k2, v2) :: t2 => k1 == k2 && J.beq v1 v2 && beqFields t1 t2
  | _, _ => false

/-- A JSON object: the record shape returned by the API for one
resource. -/
abbrev JObj := List (String × J)

/-- Python truthiness of a record: an empty dict is falsy. -/
def jobjTruthy (o : JObj) : Bool := !o.isEmpty

/-- The Python `dict.get(key, default)` call on a record. -/
def jobjGet (o : JObj) (key : String) (default : J) : J :=
  match o.find? (fun p => p.1 == key) with
  | some p => p.2
  | none => default

/-- Model of `get_nested(data, key, default)`: read `key` when `data` is
a dict, otherwise return the default (the polymorphic accessor for
fields that may arrive as a nested object or a bare scalar). -/
def get_nested (data : J) (key : String) (default : J) : J :=
  match data with
  | J.obj fields => jobjGet fields key default
  | _ => default

/-- Python truthiness of a JSON value (`if not duration`, `if content`,
and similar tests in the source). -/
def jTruthy : J → Bool
  | J.null => false
  | J.b v => v
  | J.n v => !(v == 0)
  | J.s v => !v.isEmpty
  | J.obj fields => !fields.isEmpty

/-! ## Duration parsing -/

/-- The Python `int()` constructor on the strings reached through
`parse_duration_seconds`: an optional sign followed by a nonempty digit
string (whitespace and underscore forms are outside the model). -/
def pyIntOfStr : String → Option Int
  | s =>
    match s.data with
    | '-' :: rest => if !rest.isEmpty && rest.all Char.isDigit
        then some (-(pyStrToNat ⟨rest⟩ : Int)) else none
    | '+' :: rest => if !rest.isEmpty && rest.all Char.isDigit
        then some (pyStrToNat ⟨rest⟩ : Int) else none
    | l => if !l.isEmpty && l.all Char.isDigit
        then some (pyStrToNat ⟨l⟩ : Int) else none

/-- Value of a decimal fraction part of the given digit list. -/
def fracValue (l : List Char) : Rat :=
  (pyStrToNat ⟨l⟩ : Rat) / ((10 : Rat) ^ l.length)

/-- The Python `float()` constructor on plain decimal forms: an optional
sign, then digits with an optional dot (`12`, `12.`, `12.5`, `.5`);
exponent, underscore and special forms are outside the model. -/
def pyFloatOfStr (s : String) : Option Rat :=
  let core : List Char → Option Rat := fun l =>
    match splitFirstChar '.' l with
    | none => if !l.isEmpty && l.all Char.isDigit
        then some (pyStrToNat ⟨l⟩ : Rat) else none
    | some (intPart, fracPart) =>
        if (intPart.isEmpty && fracPart.isEmpty) then none
        else if intPart.all Char.isDigit && fracPart.all Char.isDigit
        then some ((pyStrToNat ⟨intPart⟩ : Rat) + fracValue fracPart)
        else none
  match s.data with
  | '-' :: rest => (core rest).map (fun v => -v)
  | '+' :: rest => core rest
  | l => core l

/-- The Python `str.split(c)` call: split at every occurrence of `c`. -/
def splitAllChar (c : Char) : List Char → List (List Char)
  | [] => [[]]
  | x :: xs =>
    if x == c then [] :: splitAllChar c xs
    else
      match splitAllChar c xs with
      | h :: t => (x :: h) :: t
      | [] => [[x]]

/-- Model of `parse_duration_seconds(duration)` on a string: falsy
(empty) strings give zero; a three-part `H:M:S` split converts via
`int`, `int` and `float`; any conversion failure or other shape gives
zero. -/
def parse_duration_seconds (s : String) : Rat :=
  if s.isEmpty then 0
  else
    match splitAllChar ':' s.data with
    | [h, m, sec] =>
      match pyIntOfStr ⟨h⟩, pyIntOfStr ⟨m⟩, pyFloatOfStr ⟨sec⟩ with
      | some hv, some mv, some sv => (hv : Rat) * 3600 + (mv : Rat) * 60 + sv
      | _, _, _ => 0
    | _ => 0

/-- Duration extraction applied to a JSON field value: non-string values
either are falsy or raise `AttributeError` inside the helper, which the
source catches, so every non-string value parses to zero. -/
def parse_duration_j : J → Rat
  | J.s v => parse_duration_seconds v
  | _ => 0

/-! ## The batch fetch coordinator (ARAClient.batch_get) -/

/-- Python dict insertion `out[pk] = data`: replace the binding in place
when the key is present (records hold at most one binding per key),
append otherwise. -/
def dictInsert {α : Type} : List (Nat × α) → Nat → α → List (Nat × α)
  | [], k, v => [(k, v)]
  | p :: t, k, v => if p.1 = k then (k, v) :: t else p :: dictInsert t k v

/-- Python dict lookup returning an option (`dict.get`). -/
def dictLookup {α : Type} : List (Nat × α) → Nat → Option α
  | [], _ => none
  | p :: t, k => if p.1 = k then some p.2 else dictLookup t k

/-- Keys of a dict in insertion order. -/
def dictKeys {α : Type} (m : List (Nat × α)) : List Nat := m.map (·.1)

/-- Model of `ARAClient.batch_get(resource, pks)`.  The oracle `fetch`
stands for `self.get(resource, pk)`: `none` models a fetch that raises.
`asyncio.gather` returns outcomes in argument order, so the result dict
is built by folding over `pks` in order, skipping failures (they are
logged and excluded). -/
def batch_get {α : Type} (fetch : Nat → Option α) (pks : List Nat) : List (Nat × α) :=
  if pks.isEmpty then []
  else
    pks.foldl (fun out pk =>
      match fetch pk with
      | none => out
      | some data => dictInsert out pk data) []

/-- The list of individual fetches `batch_get` issues: one
`_fetch_one(pk)` coroutine per element of `pks` (none for the empty
input, which returns before gathering). -/
def batch_get_fetches (pks : List Nat) : List Nat :=
  if pks.isEmpty then [] else pks

/-! ## Failure aggregation (handle_troubleshoot_playbook) -/

/-- A row of a list-query response, with the two fields the aggregation
loops read from it: `result["id"]` and `result.get("task")`. -/
structure Row where
  id : Nat
  task : J
deriving Repr

/-- The data fields one entry of the troubleshoot-playbook failure
report joins together (presentation-only strings such as urls and code
snippets are not modelled). -/
structure FailureEntry where
  resultId : Nat
  taskName : J
  taskAction : J
  hostId : J
  hostName : J
deriving Repr

/-- Model of the display loop of `handle_troubleshoot_playbook` (one
iteration per original failure row, in query order).  The source indexes
`full_results[result_id]` directly, so a failure id missing from the
batch-fetch mapping raises `KeyError`, which aborts the whole loop; that
behavior is transcribed here as an `Except.error`. -/
def build_failure_entries (full_results : List (Nat × JObj)) :
    List Row → Except PyErr (List FailureEntry)
  | [] => .ok []
  | result :: rest =>
    match dictLookup full_results result.id with
    | none => .error (.keyError result.id)
    | some full_result =>
      let task_info := jobjGet full_result "task" (J.obj [])
      let host_info := jobjGet full_result "host" (J.obj [])
      let entry : FailureEntry :=
        { resultId := result.id
          taskName := get_nested task_info "name" (J.s "Unknown")
          taskAction := get_nested task_info "action" (J.s "unknown")
          hostId := get_nested host_info "id" J.null
          hostName := get_nested host_info "name" (J.s "Unknown") }
      match build_failure_entries full_results rest with
      | .error e => .error e
      | .ok entries => .ok (entry :: entries)

/-! ## Host troubleshooting (handle_troubleshoot_host) -/

/-- Parameters of one `ara.list("results", ...)` call made by
`handle_troubleshoot_host`. -/
structure ResultsQuery where
  host : Nat
  status : String
  limit : Nat
deriving Repr, DecidableEq

/-- A list-query response page: the rows returned (at most `limit`) and
the total `count` reported by the server. -/
structure Page where
  results : List Row
  count : Nat
deriving Repr

/-- One displayed entry of the troubleshoot-host report: either the
degraded could-not-fetch-details line or the joined fields. -/
inductive HostFailureEntry where
  | fetchFailed (resultId : Nat)
  | entry (resultId : Nat) (status : J) (taskName : J) (taskAction : J)
deriving Repr

def HostFailureEntry.resultId : HostFailureEntry → Nat
  | .fetchFailed rid => rid
  | .entry rid _ _ _ => rid

/-- The aggregation result of `handle_troubleshoot_host`: the two list
queries issued, the reported failure count (`none` for the no-failures
report), the displayed entries and the trailing and-N-more count. -/
structure HostReport where
  queries : List ResultsQuery
  found : Option Nat
  entries : List HostFailureEntry
  moreCount : Option Nat
deriving Repr

/-- One iteration of the display loop of `handle_troubleshoot_host`:
read the full record of the row from the batch mapping via `dict.get`,
degrading a missing or falsy record to the could-not-fetch-details
line. -/
def mkHostEntry (full_results : List (Nat × JObj)) (result : Row) : HostFailureEntry :=
  match dictLookup full_results result.id with
  | none => HostFailureEntry.fetchFailed result.id
  | some full_result =>
    if !jobjTruthy full_result then HostFailureEntry.fetchFailed result.id
    else
      let task_info := jobjGet full_result "task" (J.obj [])
      HostFailureEntry.entry result.id
        (jobjGet full_result "status" (J.s "unknown"))
        (get_nested task_info "name" (J.s "Unknown"))
        (get_nested task_info "action" (J.s "unknown"))

/-- Model of the failures section of `handle_troubleshoot_host(pk)`:
two list calls (status failed and status unreachable, limit 50 each) are
gathered, their rows concatenated, the first 10 batch-fetched in full
and displayed (degrading a missing or falsy full record to a
could-not-fetch line), and the count of all fetched rows reported, with
an and-N-more line past 10. -/
def handle_troubleshoot_host (listResults : ResultsQuery → Page)
    (fetch : Nat → Option JObj) (pk : Nat) : HostReport :=
  let q1 : ResultsQuery := ⟨pk, "failed", 50⟩
  let q2 : ResultsQuery := ⟨pk, "unreachable", 50⟩
  let failed_data := listResults q1
  let unreachable_data := listResults q2
  let all_failures := failed_data.results ++ unreachable_data.results
  if all_failures.isEmpty then ⟨[q1, q2], none, [], none⟩
  else
    let display_failures := all_failures.take 10
    let full_results := batch_get fetch (display_failures.map (·.id))
    let entries := display_failures.map (mkHostEntry full_results)
    ⟨[q1, q2], some all_failures.length, entries,
     if 10 < all_failures.length then some (all_failures.length - 10) else none⟩

/-! ## Performance analysis (handle_analyze_performance) -/

/-- State of the slowest-tasks display loop of
`handle_analyze_performance`: the `(task_id, host_name)` pairs already
shown, the number shown, the module-time bucket keyed by action, and the
ids of the displayed results in order. -/
structure PerfAcc where
  seen : List (J × J)
  shown : Nat
  task_times : List (J × Nat × Rat)
  displayedResults : List Nat
deriving Repr

/-- Membership in the `seen` set, by value equality of both pair
components. -/
def memPair (l : List (J × J)) (p : J × J) : Bool :=
  l.any (fun q => J.beq q.1 p.1 && J.beq q.2 p.2)

/-- Module-time bucket update: create the entry on first sight of the
action key (appended, keeping insertion order), then add one call and
the duration to it. -/
def bumpTimes : List (J × Nat × Rat) → J → Rat → List (J × Nat × Rat)
  | [], key, d => [(key, 1, d)]
  | (k, c, t) :: rest, key, d =>
    if J.beq k key then (k, c + 1, t + d) :: rest
    else (k, c, t) :: bumpTimes rest key d

/-- One iteration of the slowest-tasks loop of
`handle_analyze_performance`: skip a missing or falsy full record; fold
the duration of the action into the module-time bucket; then, only for
display, skip once `top_n` entries are shown or the `(task_id,
host_name)` pair was already shown. -/
def perfStep (fetch : Nat → Option JObj) (top_n : Nat)
    (acc : PerfAcc) (result : Row) : PerfAcc :=
  match fetch result.id with
  | none => acc
  | some full_result =>
    if !jobjTruthy full_result then acc
    else
      let task_info := jobjGet full_result "task" (J.obj [])
      let host_info := jobjGet full_result "host" (J.obj [])
      let task_id := get_nested task_info "id" result.task
      let host_name := get_nested host_info "name" (J.s "Unknown")
      let task_action := get_nested task_info "action" (J.s "unknown")
      let duration := jobjGet full_result "duration" (J.s "N/A")
      let duration_sec := parse_duration_j duration
      let acc1 : PerfAcc := { acc with task_times := bumpTimes acc.task_times task_action duration_sec }
      if top_n ≤ acc1.shown then acc1
      else if memPair acc1.seen (task_id, host_name) then acc1
      else { acc1 with
             seen := acc1.seen ++ [(task_id, host_name)]
             shown := acc1.shown + 1
             displayedResults := acc1.displayedResults ++ [result.id] }

/-- The slowest-tasks loop of `handle_analyze_performance` over the
listed result rows of the target playbook. -/
def analyze_slowest_tasks (fetch : Nat → Option JObj) (top_n : Nat)
    (results : List Row) : PerfAcc :=
  results.foldl (perfStep fetch top_n) ⟨[], 0, [], []⟩

/-- The module-time accumulation alone: fold the action duration of
every successfully fetched, truthy full record, with no display state. -/
def module_time_bucket (fetch : Nat → Option JObj) (results : List Row) :
    List (J × Nat × Rat) :=
  results.foldl (fun times result =>
    match fetch result.id with
    | none => times
    | some full_result =>
      if !jobjTruthy full_result then times
      else
        bumpTimes times
          (get_nested (jobjGet full_result "task" (J.obj [])) "action" (J.s "unknown"))
          (parse_duration_j (jobjGet full_result "duration" (J.s "N/A")))) []

/-- The Python `max()` of a list (call sites guard against the empty
list, for which Python raises; the model returns zero there). -/
def pyMaxList : List Rat → Rat
  | [] => 0
  | h :: t => t.foldl max h

/-- The Python `min()` of a list (same guard as `pyMaxList`). -/
def pyMinList : List Rat → Rat
  | [] => 0
  | h :: t => t.foldl min h

/-- A cross-run measurement as aggregated by
`handle_analyze_performance`: `(playbook_id, duration, controller)`. -/
abbrev Measurement := Nat × Rat × J

/-- Model of the task-consistency scan of `handle_analyze_performance`:
for every task name of the aggregate with at least two measurements,
compute mean, min and max of the durations and flag the task when the
mean exceeds one second and the range exceeds half the mean; flagged
entries keep `(name, min, max, mean, measurements)` in encounter
order. -/
def inconsistent_tasks (agg : List (J × List Measurement)) :
    List (J × Rat × Rat × Rat × List Measurement) :=
  agg.foldl (fun acc p =>
    let measurements := p.2
    if 2 ≤ measurements.length then
      let durations := measurements.map (fun m => m.2.1)
      let avg := durations.sum / (durations.length : Rat)
      let max_dur := pyMaxList durations
      let min_dur := pyMinList durations
      if 1 < avg ∧ 1/2 < (max_dur - min_dur) / avg then
        acc ++ [(p.1, min_dur, max_dur, avg, measurements)]
      else acc
    else acc) []

/-! ## Concrete oracles and string classes used by the theorems -/

/-- A concrete fetch oracle for the C7 example: the fetch of id 2
raises, every other fetch succeeds. -/
def exFetchC7 : Nat → Option String := fun k => if k = 2 then none else some "record"

/-- A concrete list oracle: a host with 60 failed results of which the
server page returns the first 50, and no unreachable results. -/
def exListResultsC4 : ResultsQuery → Page := fun q =>
  if q.status = "failed" then ⟨(List.range 50).map (fun i => ⟨i + 1, J.null⟩), 60⟩
  else ⟨[], 0⟩

/-- Characters that can appear in the path part of a well-formed
resource url: not whitespace and none of the delimiters the later
pipeline stages react to. -/
def pathSafe (c : Char) : Bool :=
  !isPySpace c && !(c == '#') && !(c == '?') && !(c == ';')

/-- A wellformed url scheme: nonempty, first character an ASCII letter,
all characters scheme characters. -/
def isSchemeStr (s : String) : Bool :=
  match s.data with
  | [] => false
  | c :: _ => c.isAlpha && s.data.all isSchemeChar

/-- A wellformed host (netloc) component: nonempty, free of the netloc
delimiters slash, question mark and hash, and free of whitespace. -/
def isHostStr (s : String) : Bool :=
  !s.data.isEmpty && s.data.all (fun c => !isNetlocDelim c && !isPySpace c)

/-- A wellformed resource kind: nonempty, all word characters. -/
def isKindStr (s : String) : Bool :=
  !s.data.isEmpty && s.data.all isWordChar

/-- A wellformed decimal id: nonempty, all digits. -/
def isDigitsStr (s : String) : Bool :=
  !s.data.isEmpty && s.data.all Char.isDigit

/-- A query or fragment component free of whitespace (a whitespace-free
string is unchanged by the strip and unsafe-byte removal steps). -/
def isQueryFragStr (s : String) : Bool :=
  s.data.all (fun c => !isPySpace c)

/-! ## Helper lemmas about the batch fetch coordinator -/

theorem dictLookup_nil {α : Type} (k : Nat) : dictLookup ([] : List (Nat × α)) k = none := rfl

theorem dictLookup_dictInsert {α : Type} (m : List (Nat × α)) (k k' : Nat) (v : α) :
    dictLookup (dictInsert m k v) k' = if k' = k then some v else dictLookup m k' := by
  induction m with
  | nil =>
    by_cases h : k' = k
    · simp [dictInsert, dictLookup, h]
    · simp [dictInsert, dictLookup, h, Ne.symm h]
  | cons p t ih =>
    by_cases hpk : p.1 = k
    · by_cases h : k' = k
      · simp [dictInsert, dictLookup, hpk, h]
      · simp [dictInsert, dictLookup, hpk, h, Ne.symm h]
    · by_cases hp : p.1 = k'
      · have h : ¬ k' = k := fun he => hpk (hp.trans he)
        simp [dictInsert, dictLookup, hpk, hp, h]
      · by_cases h : k' = k
        · subst h
          simp [dictInsert, dictLookup, hpk, hp, ih]
        · simp [dictInsert, dictLookup, hpk, hp, h, ih]

theorem batch_get_foldl_lookup {α : Type} (fetch : Nat → Option α) (pks : List Nat)
    (k : Nat) : ∀ out : List (Nat × α),
    dictLookup (pks.foldl (fun out pk =>
        match fetch pk with
        | none => out
        | some data => dictInsert out pk data) out) k
      = if k ∈ pks ∧ (fetch k).isSome then fetch k else dictLookup out k := by
  induction pks with
  | nil => intro out; simp
  | cons pk rest ih =>
    intro out
    rw [List.foldl_cons, ih]
    rcases hf : fetch pk with _ | d
    · by_cases hk : k = pk
      · subst hk
        simp [hf]
      · by_cases hr : k ∈ rest ∧ (fetch k).isSome <;> simp [hr, hk]
    · simp only [dictLookup_dictInsert]
      by_cases hk : k = pk
      · subst hk
        by_cases hr : k ∈ rest ∧ (fetch k).isSome <;> simp [hr, hf]
      · by_cases hr : k ∈ rest ∧ (fetch k).isSome <;> simp [hr, hk]

/-- Characterization of the mapping `batch_get` returns: a key maps to
its fetched record exactly when it was requested and its fetch
succeeded. -/
theorem batch_get_lookup {α : Type} (fetch : Nat → Option α) (pks : List Nat) (k : Nat) :
    dictLookup (batch_get fetch pks) k = if k ∈ pks then fetch k else none := by
  unfold batch_get
  by_cases he : pks.isEmpty
  · rw [if_pos he]
    rw [List.isEmpty_iff] at he
    subst he
    simp [dictLookup_nil]
  · rw [if_neg he, batch_get_foldl_lookup, dictLookup_nil]
    by_cases hm : k ∈ pks
    · rcases hf : fetch k with _ | d <;> simp [hm, hf]
    · simp [hm]

/-! ## Claim theorems: the batch fetch coordinator -/

/-- C1.  The spec requires `troubleshoot_playbook` to degrade an entry
whose full result record is missing from the batch mapping, never to
abort; the transcribed display loop instead raises `KeyError` on the
direct `full_results[result_id]` indexing.  Concretely: one failure row
with id 7 whose full-record fetch fails makes the whole loop abort with
`KeyError 7` instead of producing a degraded entry. -/
theorem troubleshoot_playbook_missing_batch_item :
    build_failure_entries (batch_get (fun _ => (none : Option JObj)) [7]) [⟨7, J.null⟩]
      = .error (.keyError 7) := rfl

/-- C2 counterexample.  `batch_get` called with the id list `[1, 1, 2]`
issues three fetches, not two: id 1 is fetched twice, so duplicate ids
are not coalesced. -/
theorem batch_get_duplicates_counterexample :
    batch_get_fetches [1, 1, 2] = [1, 1, 2] ∧
    (batch_get_fetches [1, 1, 2]).length ≠ 2 ∧
    (batch_get_fetches [1, 1, 2]).count 1 = 2 := by decide

/-- C2 (amended).  `batch_get` issues one fetch per element of its input
list, duplicates included; because every outcome is keyed back by its
id, the returned mapping is nevertheless the same as for the
deduplicated input. -/
theorem batch_get_duplicate_mapping :
    (∀ (α : Type) (fetch : Nat → Option α) (pks : List Nat) (k : Nat),
      dictLookup (batch_get fetch pks) k = dictLookup (batch_get fetch pks.dedup) k)
    ∧ (∀ pks : List Nat, (batch_get_fetches pks).length = pks.length) := by
  constructor
  · intro α fetch pks k
    rw [batch_get_lookup, batch_get_lookup]
    by_cases hm : k ∈ pks <;> simp [hm, List.mem_dedup]
  · intro pks
    unfold batch_get_fetches
    by_cases he : pks.isEmpty
    · rw [List.isEmpty_iff] at he
      subst he
      rfl
    · rw [if_neg he]

/-- C7.  The mapping `batch_get` returns contains exactly the keys of
the successful fetches: a key is present exactly when it was requested
and its fetch did not raise; with ids `[1, 2, 3]` and a fetch that
raises on id 2, the keys are exactly `[1, 3]`. -/
theorem batch_get_partial_success :
    (∀ (α : Type) (fetch : Nat → Option α) (pks : List Nat) (k : Nat),
      (dictLookup (batch_get fetch pks) k).isSome = (pks.contains k && (fetch k).isSome))
    ∧ dictKeys (batch_get exFetchC7 [1, 2, 3]) = [1, 3] := by
  constructor
  · intro α fetch pks k
    rw [batch_get_lookup]
    by_cases hm : k ∈ pks <;> simp [hm]
  · rfl

/-! ## Claim theorems: performance aggregation -/

theorem perfStep_task_times (fetch : Nat → Option JObj) (top_n : Nat)
    (acc : PerfAcc) (result : Row) :
    (perfStep fetch top_n acc result).task_times
      = (match fetch result.id with
         | none => acc.task_times
         | some full_result =>
           if !jobjTruthy full_result then acc.task_times
           else
             bumpTimes acc.task_times
               (get_nested (jobjGet full_result "task" (J.obj [])) "action" (J.s "unknown"))
               (parse_duration_j (jobjGet full_result "duration" (J.s "N/A")))) := by
  unfold perfStep
  rcases fetch result.id with _ | full_result
  · rfl
  · by_cases ht : jobjTruthy full_result
    · simp only [ht]
      split
      · rfl
      · split
        · rfl
        · split <;> rfl
    · simp [ht]

theorem perfFold_task_times (fetch : Nat → Option JObj) (top_n : Nat)
    (results : List Row) : ∀ acc : PerfAcc,
    (results.foldl (perfStep fetch top_n) acc).task_times
      = results.foldl (fun times result =>
          match fetch result.id with
          | none => times
          | some full_result =>
            if !jobjTruthy full_result then times
            else
              bumpTimes times
                (get_nested (jobjGet full_result "task" (J.obj [])) "action" (J.s "unknown"))
                (parse_duration_j (jobjGet full_result "duration" (J.s "N/A")))) acc.task_times := by
  induction results with
  | nil => intro acc; rfl
  | cons r rest ih =>
    intro acc
    rw [List.foldl_cons, List.foldl_cons, ih, perfStep_task_times]

/-- C9.  Every successfully fetched, truthy full result of the sampled
rows contributes its action duration to the module-time bucket: the
bucket computed by the display loop equals the bucket folded over the
full sample with no display state at all, for every display cap
`top_n`.  In particular results beyond the cap and results suppressed
from display as duplicate `(task_id, host_name)` pairs still
contribute. -/
theorem module_bucket_full_sample (fetch : Nat → Option JObj) (top_n : Nat)
    (results : List Row) :
    (analyze_slowest_tasks fetch top_n results).task_times
      = module_time_bucket fetch results := by
  unfold analyze_slowest_tasks module_time_bucket
  exact perfFold_task_times fetch top_n results ⟨[], 0, [], []⟩

/-- C8.  A task of the cross-run aggregate with at least two
measurements is flagged inconsistent exactly when the mean duration
exceeds one second and the range exceeds half the mean; the durations
`[1, 1, 3]` are flagged, `[1, 1, 1]` are not, and `[0.1, 0.1, 0.9]` are
not (mean below the one-second guard). -/
theorem cross_run_inconsistency_flag :
    (∀ (name : J) (ms : List Measurement), 2 ≤ ms.length →
      (inconsistent_tasks [(name, ms)] ≠ [] ↔
        (1 < (ms.map (fun m => m.2.1)).sum / ((ms.map (fun m => m.2.1)).length : Rat) ∧
         1/2 < (pyMaxList (ms.map (fun m => m.2.1)) - pyMinList (ms.map (fun m => m.2.1)))
               / ((ms.map (fun m => m.2.1)).sum / ((ms.map (fun m => m.2.1)).length : Rat)))))
    ∧ inconsistent_tasks [(J.s "A", [(1, 1, J.null), (2, 1, J.null), (3, 3, J.null)])] ≠ []
    ∧ inconsistent_tasks [(J.s "A", [(1, 1, J.null), (2, 1, J.null), (3, 1, J.null)])] = []
    ∧ inconsistent_tasks
        [(J.s "A", [(1, 1/10, J.null), (2, 1/10, J.null), (3, 9/10, J.null)])] = [] := by
  refine ⟨?_, ?_, ?_, ?_⟩
  · intro name ms hlen
    simp only [inconsistent_tasks, List.foldl_cons, List.foldl_nil, if_pos hlen,
      List.nil_append]
    split
    · rename_i hc
      exact iff_of_true (by simp) hc
    · rename_i hc
      exact iff_of_false (by simp) hc
  · norm_num [inconsistent_tasks, pyMaxList, pyMinList]
  · norm_num [inconsistent_tasks, pyMaxList, pyMinList]
  · norm_num [inconsistent_tasks, pyMaxList, pyMinList]

/-- C8 witness: the flag criterion applied at the concrete two-element
measurement list with durations 1 and 3 (mean 2, range 2). -/
theorem cross_run_inconsistency_flag_witness :
    inconsistent_tasks [(J.s "B", [(1, 1, J.null), (2, 3, J.null)])] ≠ [] :=
  (cross_run_inconsistency_flag.1 (J.s "B") [(1, 1, J.null), (2, 3, J.null)]
      (by norm_num)).mpr
    (by norm_num [pyMaxList, pyMinList])

/-! ## Claim theorems: host troubleshooting -/

/-- C4 counterexample.  With 60 failed results (server count 60, page of
50 rows) the report says it found 50 failures: the reported total is the
number of fetched rows, not the true total count of the failures of the
host. -/
theorem troubleshoot_host_total_counterexample :
    (handle_troubleshoot_host exListResultsC4 (fun _ => (none : Option JObj)) 5).found
        = some 50 ∧
    (exListResultsC4 ⟨5, "failed", 50⟩).count
        + (exListResultsC4 ⟨5, "unreachable", 50⟩).count = 60 := by
  exact ⟨rfl, rfl⟩

theorem mkHostEntry_resultId (full_results : List (Nat × JObj)) (r : Row) :
    (mkHostEntry full_results r).resultId = r.id := by
  unfold mkHostEntry
  rcases dictLookup full_results r.id with _ | fr
  · rfl
  · by_cases ht : jobjTruthy fr <;> simp [HostFailureEntry.resultId, ht]

/-- C4 (amended).  `handle_troubleshoot_host` issues exactly the two
independent list calls (status failed and status unreachable, limit 50
each), concatenates their rows, displays entries for the first 10 rows
of the concatenation, and reports the length of the concatenation as
the failure count — the count of fetched rows, which understates the
true total when one status has more than 50 results. -/
theorem troubleshoot_host_report_shape (listResults : ResultsQuery → Page)
    (fetch : Nat → Option JObj) (pk : Nat) :
    (handle_troubleshoot_host listResults fetch pk).queries
        = [⟨pk, "failed", 50⟩, ⟨pk, "unreachable", 50⟩] ∧
    (handle_troubleshoot_host listResults fetch pk).entries.map HostFailureEntry.resultId
        = (((listResults ⟨pk, "failed", 50⟩).results
            ++ (listResults ⟨pk, "unreachable", 50⟩).results).take 10).map Row.id ∧
    (handle_troubleshoot_host listResults fetch pk).found
        = (if ((listResults ⟨pk, "failed", 50⟩).results
               ++ (listResults ⟨pk, "unreachable", 50⟩).results).isEmpty then none
           else some ((listResults ⟨pk, "failed", 50⟩).results
               ++ (listResults ⟨pk, "unreachable", 50⟩).results).length) ∧
    (handle_troubleshoot_host listResults fetch pk).moreCount
        = (if ((listResults ⟨pk, "failed", 50⟩).results
               ++ (listResults ⟨pk, "unreachable", 50⟩).results).isEmpty then none
           else if 10 < ((listResults ⟨pk, "failed", 50⟩).results
               ++ (listResults ⟨pk, "unreachable", 50⟩).results).length
           then some (((listResults ⟨pk, "failed", 50⟩).results
               ++ (listResults ⟨pk, "unreachable", 50⟩).results).length - 10)
           else none) := by
  unfold handle_troubleshoot_host
  by_cases he : ((listResults ⟨pk, "failed", 50⟩).results
      ++ (listResults ⟨pk, "unreachable", 50⟩).results).isEmpty
  · have hnil := List.isEmpty_iff.mp he
    simp [he, hnil]
  · simp only [if_neg he]
    refine ⟨trivial, ?_, trivial, trivial⟩
    rw [List.map_map]
    apply List.map_congr_left
    intro r _
    simp only [Function.comp_apply]
    exact mkHostEntry_resultId _ r

/-! ## Claim theorems: identifier resolution -/

/-- C3 counterexample.  The identifier resolver the tool handlers use is
`extract_id`, and on the purely numeric string 42 it resolves silently
to id 42 instead of raising. -/
theorem extract_id_numeric_counterexample :
    extract_id "http://127.0.0.1:8000" "42" = .ok 42 := rfl

/-- C3 (amended).  `parse_ara_url` rejects every purely numeric string
with the ambiguous-identifier `InvalidInput` error and never resolves
it; but `extract_id`, the resolver the tool handlers call (which get
the resource kind from their own context), resolves the same string
directly to its numeric value without raising. -/
theorem numeric_identifier_behavior (webBase s : String)
    (h : pyIsDigit (pyStrip s) = true) :
    parse_ara_url webBase s = .error .ambiguousId ∧
    extract_id webBase s = .ok (pyStrToNat (pyStrip s)) := by
  constructor
  · unfold parse_ara_url
    rw [if_pos h]
  · unfold extract_id
    rw [if_pos h]

/-- C3 witness: the amended claim applied at the numeric string 42. -/
theorem numeric_identifier_behavior_witness :
    pyIsDigit (pyStrip "42") = true ∧
    parse_ara_url "http://127.0.0.1:8000" "42" = .error .ambiguousId ∧
    extract_id "http://127.0.0.1:8000" "42" = .ok (pyStrToNat (pyStrip "42")) :=
  ⟨rfl, numeric_identifier_behavior "http://127.0.0.1:8000" "42" rfl⟩

/-! ## Helper lemmas about the url pipeline -/

theorem splitFirstChar_not_mem {c : Char} {l : List Char} (h : c ∉ l) :
    splitFirstChar c l = none := by
  induction l with
  | nil => rfl
  | cons x xs ih =>
    have hx : ¬ x = c := fun he => h (he ▸ List.mem_cons_self x xs)
    have hxs : c ∉ xs := fun hm => h (List.mem_cons_of_mem x hm)
    simp [splitFirstChar, hx, ih hxs]

theorem splitFirstChar_append {c : Char} {a b : List Char} (h : c ∉ a) :
    splitFirstChar c (a ++ c :: b) = some (a, b) := by
  induction a with
  | nil => simp [splitFirstChar]
  | cons x xs ih =>
    have hx : ¬ x = c := fun he => h (he ▸ List.mem_cons_self x xs)
    have hxs : c ∉ xs := fun hm => h (List.mem_cons_of_mem x hm)
    simp [splitFirstChar, hx, ih hxs]

theorem takeWhile_all {p : Char → Bool} {a : List Char} (h : ∀ x ∈ a, p x = true) :
    a.takeWhile p = a := by
  induction a with
  | nil => rfl
  | cons x xs ih =>
    simp [List.takeWhile_cons, h x (List.mem_cons_self x xs),
      ih (fun y hy => h y (List.mem_cons_of_mem x hy))]

theorem dropWhile_all {p : Char → Bool} {a : List Char} (h : ∀ x ∈ a, p x = true) :
    a.dropWhile p = [] := by
  induction a with
  | nil => rfl
  | cons x xs ih =>
    simp [List.dropWhile_cons, h x (List.mem_cons_self x xs),
      ih (fun y hy => h y (List.mem_cons_of_mem x hy))]

theorem takeWhile_append_stop {p : Char → Bool} {a : List Char} {c : Char} {b : List Char}
    (ha : ∀ x ∈ a, p x = true) (hc : p c = false) :
    (a ++ c :: b).takeWhile p = a := by
  induction a with
  | nil => simp [List.takeWhile_cons, hc]
  | cons x xs ih =>
    simp [List.takeWhile_cons, ha x (List.mem_cons_self x xs),
      ih (fun y hy => ha y (List.mem_cons_of_mem x hy))]

theorem dropWhile_append_stop {p : Char → Bool} {a : List Char} {c : Char} {b : List Char}
    (ha : ∀ x ∈ a, p x = true) (hc : p c = false) :
    (a ++ c :: b).dropWhile p = c :: b := by
  induction a with
  | nil => simp [List.dropWhile_cons, hc]
  | cons x xs ih =>
    simp [List.dropWhile_cons, ha x (List.mem_cons_self x xs),
      ih (fun y hy => ha y (List.mem_cons_of_mem x hy))]

theorem dropWhile_eq_self_of_all {p : Char → Bool} {l : List Char}
    (h : ∀ x ∈ l, p x = false) : l.dropWhile p = l := by
  cases l with
  | nil => rfl
  | cons x xs => simp [List.dropWhile_cons, h x (List.mem_cons_self x xs)]

theorem dropTrailing_eq_self_of_all {p : Char → Bool} {l : List Char}
    (h : ∀ x ∈ l, p x = false) : dropTrailing p l = l := by
  unfold dropTrailing
  rw [dropWhile_eq_self_of_all (fun x hx => h x (List.mem_reverse.mp hx)), List.reverse_reverse]

theorem pyStripL_eq_self {l : List Char} (h : ∀ x ∈ l, isPySpace x = false) :
    pyStripL l = l := by
  unfold pyStripL
  rw [dropWhile_eq_self_of_all h, dropTrailing_eq_self_of_all h]

theorem removeUnsafeL_eq_self {l : List Char} (h : ∀ x ∈ l, isPySpace x = false) :
    removeUnsafeL l = l := by
  unfold removeUnsafeL
  rw [List.filter_eq_self]
  intro a ha
  have ha2 := h a ha
  simp only [isPySpace, Bool.or_eq_false_iff, beq_eq_false_iff_ne] at ha2
  simp [ha2.1.1.1.1.2, ha2.1.1.1.2, ha2.1.1.2]

theorem dropTrailing_concat {p : Char → Bool} {l : List Char} {x : Char}
    (hp : p x = false) : dropTrailing p (l ++ [x]) = l ++ [x] := by
  unfold dropTrailing
  rw [List.reverse_append]
  simp [List.dropWhile_cons, hp]

theorem contains_eq_false {l : List Char} {c : Char} (h : ∀ x ∈ l, ¬ x = c) :
    l.contains c = false := by
  simpa using fun hm => h c hm rfl

theorem exists_first_split {c : Char} {l : List Char} (h : c ∈ l) :
    ∃ a b, l = a ++ c :: b ∧ c ∉ a := by
  induction l with
  | nil => cases h
  | cons x xs ih =>
    by_cases hx : x = c
    · exact ⟨[], xs, by rw [hx]; rfl, by simp⟩
    · have hm : c ∈ xs := by
        rcases List.mem_cons.mp h with h1 | h1
        · exact absurd h1.symm hx
        · exact h1
      obtain ⟨a, b, hab, hna⟩ := ih hm
      refine ⟨x :: a, b, by rw [hab]; rfl, ?_⟩
      intro hmem
      rcases List.mem_cons.mp hmem with h1 | h1
      · exact hx h1.symm
      · exact hna h1

/-- Core fact about the fragment and query splits: a prefix free of hash
and question mark survives as the path, whatever well-formed suffix
(empty, starting with a question mark or starting with a hash)
follows. -/
theorem path_of_splits {P QF : List Char} (hP : ∀ x ∈ P, ¬ x = '#' ∧ ¬ x = '?')
    (hQF : QF = [] ∨ (∃ R, QF = '?' :: R) ∨ (∃ R, QF = '#' :: R)) :
    (splitQueryL (splitFragmentL (P ++ QF)).1).1 = P := by
  have hPh : '#' ∉ P := fun hm => (hP _ hm).1 rfl
  have hPq : '?' ∉ P := fun hm => (hP _ hm).2 rfl
  rcases hQF with rfl | ⟨R, rfl⟩ | ⟨R, rfl⟩
  · rw [List.append_nil]
    unfold splitFragmentL
    rw [splitFirstChar_not_mem hPh]
    unfold splitQueryL
    rw [splitFirstChar_not_mem hPq]
  · by_cases hm : '#' ∈ R
    · obtain ⟨R1, R2, rfl, hR1⟩ := exists_first_split hm
      have hnot : '#' ∉ P ++ '?' :: R1 := by
        intro hmem
        rcases List.mem_append.mp hmem with h1 | h1
        · exact hPh h1
        · rcases List.mem_cons.mp h1 with h2 | h2
          · exact absurd h2 (by decide)
          · exact hR1 h2
      unfold splitFragmentL
      rw [show P ++ '?' :: (R1 ++ '#' :: R2) = (P ++ '?' :: R1) ++ '#' :: R2 by simp,
        splitFirstChar_append hnot]
      unfold splitQueryL
      rw [splitFirstChar_append hPq]
    · have hnot : '#' ∉ P ++ '?' :: R := by
        intro hmem
        rcases List.mem_append.mp hmem with h1 | h1
        · exact hPh h1
        · rcases List.mem_cons.mp h1 with h2 | h2
          · exact absurd h2 (by decide)
          · exact hm h2
      unfold splitFragmentL
      rw [splitFirstChar_not_mem hnot]
      unfold splitQueryL
      rw [splitFirstChar_append hPq]
  · unfold splitFragmentL
    rw [splitFirstChar_append hPh]
    unfold splitQueryL
    rw [splitFirstChar_not_mem hPq]

/-- A character of a class cannot be a concrete character outside the
class. -/
theorem ne_of_class {P : Char → Bool} {c d : Char} (h : P c = true) (hd : P d = false) :
    ¬ c = d := by
  intro he
  rw [he] at h
  rw [h] at hd
  cases hd

theorem pySpace_false_of_class {P : Char → Bool} {c : Char} (h : P c = true)
    (h1 : P ' ' = false) (h2 : P '\t' = false) (h3 : P '\n' = false)
    (h4 : P '\x0d' = false) (h5 : P '\x0b' = false) (h6 : P '\x0c' = false) :
    isPySpace c = false := by
  simp [isPySpace, ne_of_class h h1, ne_of_class h h2, ne_of_class h h3,
    ne_of_class h h4, ne_of_class h h5, ne_of_class h h6]

theorem pathSafe_of_class {P : Char → Bool} {c : Char} (h : P c = true)
    (h1 : P ' ' = false) (h2 : P '\t' = false) (h3 : P '\n' = false)
    (h4 : P '\x0d' = false) (h5 : P '\x0b' = false) (h6 : P '\x0c' = false)
    (h7 : P '#' = false) (h8 : P '?' = false) (h9 : P ';' = false) :
    pathSafe c = true := by
  simp [pathSafe, pySpace_false_of_class h h1 h2 h3 h4 h5 h6,
    ne_of_class h h7, ne_of_class h h8, ne_of_class h h9]

theorem pathSafe_of_wordChar {c : Char} (h : isWordChar c = true) : pathSafe c = true :=
  pathSafe_of_class h (by decide) (by decide) (by decide) (by decide) (by decide)
    (by decide) (by decide) (by decide) (by decide)

theorem pathSafe_of_digit {c : Char} (h : c.isDigit = true) : pathSafe c = true :=
  pathSafe_of_class h (by decide) (by decide) (by decide) (by decide) (by decide)
    (by decide) (by decide) (by decide) (by decide)

theorem not_pySpace_of_schemeChar {c : Char} (h : isSchemeChar c = true) :
    isPySpace c = false :=
  pySpace_false_of_class h (by decide) (by decide) (by decide) (by decide)
    (by decide) (by decide)

theorem not_pySpace_of_pathSafe {c : Char} (h : pathSafe c = true) :
    isPySpace c = false := by
  simp only [pathSafe, Bool.and_eq_true] at h
  rcases h with ⟨⟨⟨h1, _⟩, _⟩, _⟩
  revert h1
  cases isPySpace c <;> simp

theorem not_colon_of_schemeChar {c : Char} (h : isSchemeChar c = true) : ¬ c = ':' :=
  ne_of_class h (by decide)

theorem not_slash_of_digit {c : Char} (h : c.isDigit = true) : ¬ c = '/' :=
  ne_of_class h (by decide)

theorem pyIsDigit_false_of_mem {s : String} {c : Char} (hc : c ∈ s.data)
    (hd : c.isDigit = false) : pyIsDigit s = false := by
  unfold pyIsDigit
  have hnall : ¬ s.data.all Char.isDigit = true := by
    intro hall
    rw [List.all_eq_true] at hall
    rw [hall c hc] at hd
    cases hd
  cases hall : s.data.all Char.isDigit
  · simp
  · exact absurd hall hnall

theorem scheme_empty_of_no_colon {s : String} (h : ':' ∉ s.data) :
    (pyUrlparse s).scheme = "" := by
  unfold pyUrlparse
  have h2 : ':' ∉ removeUnsafeL s.data := fun hm => h (List.mem_of_mem_filter hm)
  simp only [splitSchemeL, splitFirstChar_not_mem h2]

theorem pyIsDigit_no_colon {s : String} (h : pyIsDigit s = true) : ':' ∉ s.data := by
  intro hm
  unfold pyIsDigit at h
  rw [Bool.and_eq_true, List.all_eq_true] at h
  exact absurd (h.2 ':' hm) (by decide)

theorem validate_ok_of_incomplete (webBase url : String)
    (h : (pyUrlparse url).scheme = "" ∨ (pyUrlparse url).netloc = "") :
    validate_url_origin webBase url = .ok () := by
  unfold validate_url_origin
  rcases h with h | h <;> simp [h]

/-! ## Claim theorems: url parsing and origin validation -/

/-- C10.  An input whose parsed form has no scheme or no network
location passes `validate_url_origin` without any check, so it bypasses
origin validation entirely, and `parse_ara_url` resolves it to the
`(kind, id)` of its path whenever the path matches the
`/<kind>/<digits>[.html]` pattern. -/
theorem origin_validation_bypass (webBase s : String)
    (h : (pyUrlparse (pyStrip s)).scheme = "" ∨ (pyUrlparse (pyStrip s)).netloc = "") :
    validate_url_origin webBase (pyStrip s) = .ok () ∧
    (pyIsDigit (pyStrip s) = false →
      ∀ kind ds,
        matchResourcePath (pyRstripSlash (pyUrlparse (pyStrip s)).path) = some (kind, ds) →
        parse_ara_url webBase s = .ok (kind, pyStrToNat ds)) := by
  refine ⟨validate_ok_of_incomplete webBase _ h, ?_⟩
  intro hd kind ds hm
  unfold parse_ara_url
  simp only [hd, Bool.false_eq_true, if_false, validate_ok_of_incomplete webBase _ h, hm]

/-- C10 witness: the bare path `/playbooks/42.html` has no scheme,
bypasses the origin check against the default server, and resolves to
`(playbooks, 42)`. -/
theorem origin_validation_bypass_witness :
    ((pyUrlparse (pyStrip "/playbooks/42.html")).scheme = "" ∨
      (pyUrlparse (pyStrip "/playbooks/42.html")).netloc = "") ∧
    validate_url_origin "http://127.0.0.1:8000" (pyStrip "/playbooks/42.html") = .ok () ∧
    parse_ara_url "http://127.0.0.1:8000" "/playbooks/42.html" = .ok ("playbooks", 42) := by
  have h : (pyUrlparse (pyStrip "/playbooks/42.html")).scheme = "" := rfl
  have hres := origin_validation_bypass "http://127.0.0.1:8000" "/playbooks/42.html" (Or.inl h)
  exact ⟨Or.inl h, hres.1, (hres.2 rfl "playbooks" "42" rfl).trans rfl⟩

/-- C5 counterexample.  The url `//evil.com/playbooks/42` has a host
different from the configured one (and an empty scheme, also different),
yet `parse_ara_url` raises no `OriginMismatch` and resolves it: the
claim fails for urls lacking a scheme or netloc. -/
theorem origin_check_bypass_counterexample :
    (pyUrlparse "//evil.com/playbooks/42").scheme = "" ∧
    (pyUrlparse "//evil.com/playbooks/42").netloc = "evil.com" ∧
    ¬ (pyUrlparse "//evil.com/playbooks/42").netloc
        = (pyUrlparse "http://127.0.0.1:8000").netloc ∧
    parse_ara_url "http://127.0.0.1:8000" "//evil.com/playbooks/42"
        = .ok ("playbooks", 42) := by
  exact ⟨rfl, rfl, by decide, rfl⟩

/-- C5 (amended).  For every url that parses with a nonempty scheme and
a nonempty netloc, a case-insensitive difference between its
`scheme://netloc` origin and the configured one makes `parse_ara_url`
raise `OriginMismatch`, regardless of the path; a url lacking a scheme
or netloc bypasses the check instead (see the bypass theorem). -/
theorem origin_mismatch_raises (webBase url : String)
    (hs : (pyUrlparse (pyStrip url)).scheme ≠ "")
    (hn : (pyUrlparse (pyStrip url)).netloc ≠ "")
    (hm : pyLower ((pyUrlparse (pyStrip url)).scheme ++ "://"
            ++ (pyUrlparse (pyStrip url)).netloc)
        ≠ pyLower ((pyUrlparse webBase).scheme ++ "://" ++ (pyUrlparse webBase).netloc)) :
    parse_ara_url webBase url = .error .originMismatch := by
  have hd : pyIsDigit (pyStrip url) = false := by
    cases hb : pyIsDigit (pyStrip url)
    · rfl
    · exact absurd (scheme_empty_of_no_colon (pyIsDigit_no_colon hb)) hs
  have hv : validate_url_origin webBase (pyStrip url) = .error .originMismatch := by
    unfold validate_url_origin
    simp [hs, hn, hm]
  unfold parse_ara_url
  simp only [hd, Bool.false_eq_true, if_false, hv]

/-! ## The round-trip theorem (C6) -/

theorem isEmpty_false_of_ne_nil {l : List Char} (h : l ≠ []) : l.isEmpty = false := by
  cases l with
  | nil => exact absurd rfl h
  | cons a t => rfl

theorem pathSafe_parts {c : Char} (hc : pathSafe c = true) :
    (¬ c = '#' ∧ ¬ c = '?') ∧ ¬ c = ';' := by
  simp only [pathSafe, Bool.and_eq_true, Bool.not_eq_true', beq_eq_false_iff_ne,
    ne_eq] at hc
  exact ⟨⟨hc.1.1.2, hc.1.2⟩, hc.2⟩

/-- Core of the round-trip property, at the level of character lists: a
url of shape `scheme://host/kind/digits[.html][suffix]`, with a
wellformed suffix (empty, or starting with a question mark or hash),
resolves against the base `scheme://host` to exactly `(kind, digits)`. -/
theorem parse_ara_url_core (c0 : Char) (S0 H K D html QF : List Char)
    (hS0 : c0.isAlpha = true)
    (hS : ∀ x ∈ c0 :: S0, isSchemeChar x = true)
    (hH : H ≠ []) (hHc : ∀ x ∈ H, (!isNetlocDelim x && !isPySpace x) = true)
    (hK : K ≠ []) (hKc : ∀ x ∈ K, isWordChar x = true)
    (hD : D ≠ []) (hDc : ∀ x ∈ D, Char.isDigit x = true)
    (hhtml : html = [] ∨ html = ".html".data)
    (hQF : QF = [] ∨ (∃ R, QF = '?' :: R) ∨ (∃ R, QF = '#' :: R))
    (hQFc : ∀ x ∈ QF, isPySpace x = false) :
    parse_ara_url ⟨(c0 :: S0) ++ ':' :: '/' :: '/' :: H⟩
      ⟨(c0 :: S0) ++ ':' :: '/' :: '/' :: (H ++ '/' :: (K ++ '/' :: (D ++ (html ++ QF))))⟩
      = .ok (⟨K⟩, pyStrToNat ⟨D⟩) := by
  have hSp : ∀ x ∈ c0 :: S0, isPySpace x = false :=
    fun x hx => not_pySpace_of_schemeChar (hS x hx)
  have hScolon : ':' ∉ c0 :: S0 := fun hm => not_colon_of_schemeChar (hS ':' hm) rfl
  have hHnd : ∀ x ∈ H, (!isNetlocDelim x) = true := by
    intro x hx
    have h2 := hHc x hx
    rw [Bool.and_eq_true] at h2
    exact h2.1
  have hHsp : ∀ x ∈ H, isPySpace x = false := by
    intro x hx
    have h2 := hHc x hx
    rw [Bool.and_eq_true] at h2
    have h3 := h2.2
    cases hsp : isPySpace x
    · rfl
    · rw [hsp] at h3
      exact absurd h3 (by decide)
  have hKsafe : ∀ x ∈ K, pathSafe x = true := fun x hx => pathSafe_of_wordChar (hKc x hx)
  have hDsafe : ∀ x ∈ D, pathSafe x = true := fun x hx => pathSafe_of_digit (hDc x hx)
  have hhtmlSafe : ∀ x ∈ html, pathSafe x = true := by
    rcases hhtml with rfl | rfl
    · intro x hx
      cases hx
    · intro x hx
      rw [show (".html" : String).data = ['.', 'h', 't', 'm', 'l'] from rfl] at hx
      fin_cases hx <;> decide
  have hPsafe : ∀ x ∈ '/' :: (K ++ '/' :: (D ++ html)), pathSafe x = true := by
    intro x hx
    rcases List.mem_cons.mp hx with rfl | hx
    · decide
    rcases List.mem_append.mp hx with hx | hx
    · exact hKsafe x hx
    rcases List.mem_cons.mp hx with rfl | hx
    · decide
    rcases List.mem_append.mp hx with hx | hx
    · exact hDsafe x hx
    · exact hhtmlSafe x hx
  have hPhq : ∀ x ∈ '/' :: (K ++ '/' :: (D ++ html)), ¬ x = '#' ∧ ¬ x = '?' :=
    fun x hx => (pathSafe_parts (hPsafe x hx)).1
  have hPsemi : ∀ x ∈ '/' :: (K ++ '/' :: (D ++ html)), ¬ x = ';' :=
    fun x hx => (pathSafe_parts (hPsafe x hx)).2
  have hclean : ∀ x ∈ (c0 :: S0) ++ ':' :: '/' :: '/'
      :: (H ++ '/' :: (K ++ '/' :: (D ++ (html ++ QF)))), isPySpace x = false := by
    intro x hx
    rcases List.mem_append.mp hx with hx | hx
    · exact hSp x hx
    rcases List.mem_cons.mp hx with rfl | hx
    · decide
    rcases List.mem_cons.mp hx with rfl | hx
    · decide
    rcases List.mem_cons.mp hx with rfl | hx
    · decide
    rcases List.mem_append.mp hx with hx | hx
    · exact hHsp x hx
    rcases List.mem_cons.mp hx with rfl | hx
    · decide
    rcases List.mem_append.mp hx with hx | hx
    · exact not_pySpace_of_pathSafe (hKsafe x hx)
    rcases List.mem_cons.mp hx with rfl | hx
    · decide
    rcases List.mem_append.mp hx with hx | hx
    · exact not_pySpace_of_pathSafe (hDsafe x hx)
    rcases List.mem_append.mp hx with hx | hx
    · exact not_pySpace_of_pathSafe (hhtmlSafe x hx)
    · exact hQFc x hx
  have hall : (c0 :: S0).all isSchemeChar = true := List.all_eq_true.mpr hS
  have hremove := removeUnsafeL_eq_self hclean
  have hsch : splitSchemeL ((c0 :: S0) ++ ':' :: '/' :: '/'
      :: (H ++ '/' :: (K ++ '/' :: (D ++ (html ++ QF)))))
      = ((c0 :: S0).map Char.toLower,
         '/' :: '/' :: (H ++ '/' :: (K ++ '/' :: (D ++ (html ++ QF))))) := by
    unfold splitSchemeL
    rw [splitFirstChar_append hScolon]
    simp [hS0, hall]
  have hnet : splitNetlocL ('/' :: '/' :: (H ++ '/' :: (K ++ '/' :: (D ++ (html ++ QF)))))
      = (H, '/' :: (K ++ '/' :: (D ++ (html ++ QF)))) := by
    simp only [splitNetlocL]
    rw [takeWhile_append_stop hHnd (by decide), dropWhile_append_stop hHnd (by decide)]
  have happ : '/' :: (K ++ '/' :: (D ++ (html ++ QF)))
      = ('/' :: (K ++ '/' :: (D ++ html))) ++ QF := by
    simp
  have hpath0 : (splitQueryL (splitFragmentL
      ('/' :: (K ++ '/' :: (D ++ (html ++ QF))))).1).1
      = '/' :: (K ++ '/' :: (D ++ html)) := by
    rw [happ]
    exact path_of_splits hPhq hQF
  have hcontains : ('/' :: (K ++ '/' :: (D ++ html))).contains ';' = false :=
    contains_eq_false hPsemi
  have hparams : splitParamsL ((c0 :: S0).map Char.toLower)
      ('/' :: (K ++ '/' :: (D ++ html))) = '/' :: (K ++ '/' :: (D ++ html)) := by
    unfold splitParamsL
    rw [hcontains, Bool.and_false]
    simp
  have hup_scheme : (pyUrlparse ⟨(c0 :: S0) ++ ':' :: '/' :: '/'
      :: (H ++ '/' :: (K ++ '/' :: (D ++ (html ++ QF))))⟩).scheme
      = ⟨(c0 :: S0).map Char.toLower⟩ := by
    unfold pyUrlparse
    simp only [hremove, hsch, hnet]
  have hup_netloc : (pyUrlparse ⟨(c0 :: S0) ++ ':' :: '/' :: '/'
      :: (H ++ '/' :: (K ++ '/' :: (D ++ (html ++ QF))))⟩).netloc = ⟨H⟩ := by
    unfold pyUrlparse
    simp only [hremove, hsch, hnet]
  have hup_path : (pyUrlparse ⟨(c0 :: S0) ++ ':' :: '/' :: '/'
      :: (H ++ '/' :: (K ++ '/' :: (D ++ (html ++ QF))))⟩).path
      = ⟨'/' :: (K ++ '/' :: (D ++ html))⟩ := by
    unfold pyUrlparse
    simp only [hremove, hsch, hnet, hpath0, hparams]
  have hcleanB : ∀ x ∈ (c0 :: S0) ++ ':' :: '/' :: '/' :: H, isPySpace x = false := by
    intro x hx
    rcases List.mem_append.mp hx with hx | hx
    · exact hSp x hx
    rcases List.mem_cons.mp hx with rfl | hx
    · decide
    rcases List.mem_cons.mp hx with rfl | hx
    · decide
    rcases List.mem_cons.mp hx with rfl | hx
    · decide
    · exact hHsp x hx
  have hremoveB := removeUnsafeL_eq_self hcleanB
  have hschB : splitSchemeL ((c0 :: S0) ++ ':' :: '/' :: '/' :: H)
      = ((c0 :: S0).map Char.toLower, '/' :: '/' :: H) := by
    unfold splitSchemeL
    rw [splitFirstChar_append hScolon]
    simp [hS0, hall]
  have hnetB : splitNetlocL ('/' :: '/' :: H) = (H, []) := by
    simp only [splitNetlocL]
    rw [takeWhile_all hHnd, dropWhile_all hHnd]
  have hupB_scheme : (pyUrlparse ⟨(c0 :: S0) ++ ':' :: '/' :: '/' :: H⟩).scheme
      = ⟨(c0 :: S0).map Char.toLower⟩ := by
    unfold pyUrlparse
    simp only [hremoveB, hschB, hnetB]
  have hupB_netloc : (pyUrlparse ⟨(c0 :: S0) ++ ':' :: '/' :: '/' :: H⟩).netloc = ⟨H⟩ := by
    unfold pyUrlparse
    simp only [hremoveB, hschB, hnetB]
  have hs1 : ¬ (⟨(c0 :: S0).map Char.toLower⟩ : String) = "" := by
    intro he
    have h2 := congrArg String.data he
    simp at h2
  have hH1 : ¬ (⟨H⟩ : String) = "" := by
    intro he
    have h2 := congrArg String.data he
    simp at h2
    exact hH h2
  have hstrip : pyStrip ⟨(c0 :: S0) ++ ':' :: '/' :: '/'
      :: (H ++ '/' :: (K ++ '/' :: (D ++ (html ++ QF))))⟩
      = ⟨(c0 :: S0) ++ ':' :: '/' :: '/' :: (H ++ '/' :: (K ++ '/' :: (D ++ (html ++ QF))))⟩ :=
    congrArg String.mk (pyStripL_eq_self hclean)
  have hvalid : validate_url_origin ⟨(c0 :: S0) ++ ':' :: '/' :: '/' :: H⟩
      ⟨(c0 :: S0) ++ ':' :: '/' :: '/' :: (H ++ '/' :: (K ++ '/' :: (D ++ (html ++ QF))))⟩
      = .ok () := by
    unfold validate_url_origin
    simp only [hup_scheme, hup_netloc, hupB_scheme, hupB_netloc]
    simp [hs1, hH1]
  have hdig : pyIsDigit (⟨(c0 :: S0) ++ ':' :: '/' :: '/'
      :: (H ++ '/' :: (K ++ '/' :: (D ++ (html ++ QF))))⟩ : String) = false := by
    refine @pyIsDigit_false_of_mem _ ':' ?_ (by decide)
    exact List.mem_append.mpr (Or.inr (List.mem_cons_self _ _))
  have hKtw : (K ++ '/' :: (D ++ html)).takeWhile isWordChar = K :=
    takeWhile_append_stop hKc (by decide)
  have hKdrop : (K ++ '/' :: (D ++ html)).drop K.length = '/' :: (D ++ html) :=
    List.drop_left K _
  have hDtw : (D ++ html).takeWhile Char.isDigit = D := by
    rcases hhtml with rfl | rfl
    · rw [List.append_nil]
      exact takeWhile_all hDc
    · exact takeWhile_append_stop hDc (by decide)
  have hDdrop : (D ++ html).drop D.length = html := List.drop_left D html
  have hKne : K.isEmpty = false := isEmpty_false_of_ne_nil hK
  have hDne : D.isEmpty = false := isEmpty_false_of_ne_nil hD
  have hmatch : matchResourcePath ⟨'/' :: (K ++ '/' :: (D ++ html))⟩ = some (⟨K⟩, ⟨D⟩) := by
    unfold matchResourcePath
    simp only [hKtw, hKne, hKdrop, hDtw, hDne, hDdrop]
    simp [hhtml]
  have hrstrip : pyRstripSlash ⟨'/' :: (K ++ '/' :: (D ++ html))⟩
      = ⟨'/' :: (K ++ '/' :: (D ++ html))⟩ := by
    refine congrArg String.mk ?_
    unfold pyRstripSlashL
    rcases hhtml with rfl | rfl
    · rcases List.eq_nil_or_concat' D with rfl | ⟨D0, d, rfl⟩
      · exact absurd rfl hD
      · have hd2 : ¬ d = '/' := not_slash_of_digit (hDc d (by simp))
        have hd3 : (fun c => c == '/') d = false := by
          simp [hd2]
        rw [show '/' :: (K ++ '/' :: (D0 ++ [d] ++ ([] : List Char)))
            = ('/' :: (K ++ '/' :: D0)) ++ [d] by simp]
        exact dropTrailing_concat hd3
    · rw [show '/' :: (K ++ '/' :: (D ++ (".html" : String).data))
          = ('/' :: (K ++ '/' :: (D ++ ['.', 'h', 't', 'm']))) ++ ['l'] by simp]
      exact dropTrailing_concat (by decide)
  unfold parse_ara_url
  simp only [hstrip, hdig, Bool.false_eq_true, if_false, hvalid, hup_path, hrstrip, hmatch]

theorem bool_flip {b : Bool} (h : (!b) = true) : b = false := by
  cases b
  · rfl
  · exact absurd h (by decide)

/-- C6.  For every valid `(kind, id)` pair embedded in a same-origin url
— with or without a `.html` suffix, a query string or a fragment —
`parse_ara_url` returns exactly that `(kind, id)`: embedding then
resolving round-trips.  The components are wellformed in the sense of
the class predicates above (the id is embedded as its digit string `ds`
and returned as the numeric value of exactly those digits). -/
theorem parse_ara_url_roundtrip (scheme host kind ds query frag : String)
    (useHtml useQuery useFrag : Bool)
    (hS : isSchemeStr scheme = true) (hH : isHostStr host = true)
    (hK : isKindStr kind = true) (hD : isDigitsStr ds = true)
    (hQ : isQueryFragStr query = true) (hF : isQueryFragStr frag = true) :
    parse_ara_url (scheme ++ "://" ++ host)
      (scheme ++ "://" ++ host ++ "/" ++ kind ++ "/" ++ ds
        ++ (if useHtml then ".html" else "")
        ++ (if useQuery then "?" ++ query else "")
        ++ (if useFrag then "#" ++ frag else ""))
      = .ok (kind, pyStrToNat ds) := by
  rcases hsd : scheme.data with _ | ⟨c0, S0⟩
  · unfold isSchemeStr at hS
    rw [hsd] at hS
    exact absurd hS (by decide)
  unfold isSchemeStr at hS
  rw [hsd] at hS
  rw [Bool.and_eq_true, List.all_eq_true] at hS
  obtain ⟨hS0, hSall⟩ := hS
  unfold isHostStr at hH
  rw [Bool.and_eq_true, List.all_eq_true] at hH
  obtain ⟨hHne, hHall⟩ := hH
  have hHne2 : host.data ≠ [] := by
    intro he
    rw [he] at hHne
    exact absurd hHne (by decide)
  unfold isKindStr at hK
  rw [Bool.and_eq_true, List.all_eq_true] at hK
  obtain ⟨hKne, hKall⟩ := hK
  have hKne2 : kind.data ≠ [] := by
    intro he
    rw [he] at hKne
    exact absurd hKne (by decide)
  unfold isDigitsStr at hD
  rw [Bool.and_eq_true, List.all_eq_true] at hD
  obtain ⟨hDne, hDall⟩ := hD
  have hDne2 : ds.data ≠ [] := by
    intro he
    rw [he] at hDne
    exact absurd hDne (by decide)
  unfold isQueryFragStr at hQ hF
  rw [List.all_eq_true] at hQ hF
  have hQc : ∀ x ∈ query.data, isPySpace x = false := fun x hx => bool_flip (hQ x hx)
  have hFc : ∀ x ∈ frag.data, isPySpace x = false := fun x hx => bool_flip (hF x hx)
  have hhtml : (if useHtml then (".html" : String) else "").data = []
      ∨ (if useHtml then (".html" : String) else "").data = ".html".data := by
    cases useHtml
    · exact Or.inl rfl
    · exact Or.inr rfl
  have hQFshape : ((if useQuery then "?" ++ query else "")
        ++ (if useFrag then "#" ++ frag else "")).data = []
      ∨ (∃ R, ((if useQuery then "?" ++ query else "")
        ++ (if useFrag then "#" ++ frag else "")).data = '?' :: R)
      ∨ (∃ R, ((if useQuery then "?" ++ query else "")
        ++ (if useFrag then "#" ++ frag else "")).data = '#' :: R) := by
    cases useQuery
    · cases useFrag
      · exact Or.inl rfl
      · refine Or.inr (Or.inr ⟨frag.data, ?_⟩)
        show (("" : String) ++ ("#" ++ frag)).data = '#' :: frag.data
        rfl
    · cases useFrag
      · refine Or.inr (Or.inl ⟨query.data ++ [], ?_⟩)
        show (("?" ++ query) ++ ("" : String)).data = '?' :: (query.data ++ [])
        rfl
      · refine Or.inr (Or.inl ⟨query.data ++ '#' :: frag.data, ?_⟩)
        show (("?" ++ query) ++ ("#" ++ frag)).data = '?' :: (query.data ++ '#' :: frag.data)
        rfl
  have hQFc : ∀ x ∈ ((if useQuery then "?" ++ query else "")
      ++ (if useFrag then "#" ++ frag else "")).data, isPySpace x = false := by
    cases useQuery
    · cases useFrag
      · intro x hx
        have hx2 : x ∈ ([] : List Char) := hx
        cases hx2
      · intro x hx
        have hx2 : x ∈ '#' :: frag.data := hx
        rcases List.mem_cons.mp hx2 with rfl | hx3
        · decide
        · exact hFc x hx3
    · cases useFrag
      · intro x hx
        have hx2 : x ∈ '?' :: (query.data ++ []) := hx
        rcases List.mem_cons.mp hx2 with rfl | hx3
        · decide
        · rw [List.append_nil] at hx3
          exact hQc x hx3
      · intro x hx
        have hx2 : x ∈ '?' :: (query.data ++ '#' :: frag.data) := hx
        rcases List.mem_cons.mp hx2 with rfl | hx3
        · decide
        rcases List.mem_append.mp hx3 with hx4 | hx4
        · exact hQc x hx4
        rcases List.mem_cons.mp hx4 with rfl | hx5
        · decide
        · exact hFc x hx5
  have hbase : scheme ++ "://" ++ host
      = ⟨(c0 :: S0) ++ ':' :: '/' :: '/' :: host.data⟩ := by
    apply String.ext
    show (scheme.data ++ [':', '/', '/']) ++ host.data
        = (c0 :: S0) ++ ':' :: '/' :: '/' :: host.data
    rw [hsd]
    simp
  have hurl : scheme ++ "://" ++ host ++ "/" ++ kind ++ "/" ++ ds
      ++ (if useHtml then ".html" else "")
      ++ (if useQuery then "?" ++ query else "")
      ++ (if useFrag then "#" ++ frag else "")
      = ⟨(c0 :: S0) ++ ':' :: '/' :: '/' :: (host.data ++ '/'
          :: (kind.data ++ '/' :: (ds.data
            ++ ((if useHtml then (".html" : String) else "").data
              ++ ((if useQuery then "?" ++ query else "")
                ++ (if useFrag then "#" ++ frag else "")).data))))⟩ := by
    apply String.ext
    show ((((((((scheme.data ++ [':', '/', '/']) ++ host.data) ++ ['/']) ++ kind.data)
        ++ ['/']) ++ ds.data) ++ (if useHtml then (".html" : String) else "").data)
        ++ (if useQuery then "?" ++ query else "").data)
        ++ (if useFrag then "#" ++ frag else "").data
        = (c0 :: S0) ++ ':' :: '/' :: '/' :: (host.data ++ '/'
          :: (kind.data ++ '/' :: (ds.data
            ++ ((if useHtml then (".html" : String) else "").data
              ++ ((if useQuery then "?" ++ query else "")
                ++ (if useFrag then "#" ++ frag else "")).data))))
    rw [hsd]
    simp
  rw [hurl, hbase]
  exact parse_ara_url_core c0 S0 host.data kind.data ds.data
    (if useHtml then (".html" : String) else "").data
    ((if useQuery then "?" ++ query else "")
      ++ (if useFrag then "#" ++ frag else "")).data
    hS0 hSall hHne2 hHall hKne2 hKall hDne2 hDall hhtml hQFshape hQFc

/-- C6 witness: the round trip applied at the demo url with `.html`
suffix, query string and fragment. -/
theorem parse_ara_url_roundtrip_witness :
    isSchemeStr "http" = true ∧ isHostStr "127.0.0.1:8000" = true ∧
    isKindStr "playbooks" = true ∧ isDigitsStr "4307" = true ∧
    parse_ara_url ("http" ++ "://" ++ "127.0.0.1:8000")
      ("http" ++ "://" ++ "127.0.0.1:8000" ++ "/" ++ "playbooks" ++ "/" ++ "4307"
        ++ (if true then ".html" else "")
        ++ (if true then "?" ++ "status=failed" else "")
        ++ (if true then "#" ++ "results" else ""))
      = .ok ("playbooks", 4307) := by
  refine ⟨rfl, rfl, rfl, rfl, ?_⟩
  have h := parse_ara_url_roundtrip "http" "127.0.0.1:8000" "playbooks" "4307"
    "status=failed" "results" true true true rfl rfl rfl rfl rfl rfl
  exact h.trans rfl

/-- C5 witness: the amended claim applied at a same-path url on a
different host. -/
theorem origin_mismatch_raises_witness :
    (pyUrlparse (pyStrip "https://demo.recordsansible.org/playbooks/1.html")).scheme ≠ "" ∧
    (pyUrlparse (pyStrip "https://demo.recordsansible.org/playbooks/1.html")).netloc ≠ "" ∧
    parse_ara_url "http://127.0.0.1:8000" "https://demo.recordsansible.org/playbooks/1.html"
        = .error .originMismatch :=
  ⟨by decide, by decide,
    origin_mismatch_raises "http://127.0.0.1:8000"
      "https://demo.recordsansible.org/playbooks/1.html"
      (by decide) (by decide) (by decide)⟩

end AraMcp
